import Mathlib

/-!
# The Sumo push bridge (`pkg/bridge/sumo.go`)

A shallow embedding of the push bridge: construction (`NewBridge`,
`newSumoClient`), one push cycle (`Bridge.Push`, `Bridge.writeMetrics`), the
submission client (`sumoAPIClient.submit`) and the scheduling loop
(`Bridge.Run`).

Go code with effects is embedded as a function into `Exec`: the list of
effects the call performed, in order, and how the call ended (it returned a
value, or the goroutine panicked).  Everything the package reaches outside
itself (the gatherer, the exposition encoder, URL parsing inside
`http.NewRequest`, the HTTP round trip, the clock) is a field of `World`.
-/

namespace SumoBridge

/-! ## Data model -/

/-- Go `time.Duration`: a signed count of nanoseconds. -/
abbrev Duration := Int

/-- Go `time.Second`. -/
def Second : Duration := 1000000000

/-- Source: `defaultInterval = 15 * time.Second`. -/
def defaultInterval : Duration := 15 * Second

/-- Source: `millisecondsPerSecond = 1000`. -/
def millisecondsPerSecond : Int := 1000

/-- Source: `type HandlerErrorHandling int`. -/
abbrev HandlerErrorHandling := Int

/-- Source: first `iota` constant. -/
def ContinueOnError : HandlerErrorHandling := 0

/-- Source: second `iota` constant. -/
def AbortOnError : HandlerErrorHandling := 1

/-- Go `http.StatusOK`. -/
def StatusOK : Int := 200

/-- Go `http.StatusMultipleChoices`. -/
def StatusMultipleChoices : Int := 300

/-- A Go `error` value.  `ext` is an error made outside the package (by the
gatherer, the encoder, `http.NewRequest` or the transport); `nonOK code` is
the value of `fmt.Errorf("non-2xx response code: %v", code)` in `submit`. -/
inductive Error where
  | ext (msg : String)
  | nonOK (code : Int)
deriving DecidableEq, Repr

/-- Go `err.Error()`: the message of an error. -/
def Error.message : Error → String
  | .ext msg => msg
  | .nonOK code => "non-2xx response code: " ++ toString code

/-- The kinds of `dto.MetricType`. -/
inductive MetricType where
  | COUNTER | GAUGE | SUMMARY | UNTYPED | HISTOGRAM
deriving DecidableEq, Repr

/-- One sample of a family (`dto.Metric`), restricted to the counter and
gauge members and to integral sample values. -/
structure Metric where
  Counter : Option Int
  Gauge : Option Int
deriving DecidableEq, Repr

/-- A metric family (`dto.MetricFamily`). -/
structure MetricFamily where
  Name : String
  Help : Option String
  Kind : MetricType
  Metric : List Metric
deriving DecidableEq, Repr

/-- A value of the `prometheus.Gatherer` interface, told apart by identity. -/
structure Gatherer where
  id : Nat
deriving DecidableEq, Repr

/-- Go `prometheus.DefaultGatherer`, the process-wide registry. -/
def DefaultGatherer : Gatherer := ⟨0⟩

/-- A non-nil value of the `Logger` interface, told apart by identity.  A
field of interface type `Logger` is an `Option Logger`; `none` is Go `nil`. -/
structure Logger where
  id : Nat
deriving DecidableEq, Repr

/-- One argument handed to `Println`. -/
inductive LogArg where
  | str (s : String)
  | err (e : Option Error)
  | int (n : Int)
  | mf (m : MetricFamily)
deriving DecidableEq, Repr

/-- The part of `http.Client` the package sets: redirects are answered with
`http.ErrUseLastResponse` (never followed), and the timeout. -/
structure Client where
  UseLastResponse : Bool
  Timeout : Duration
deriving DecidableEq, Repr

/-- An `http.Request` as `submit` builds it.  `Header` is the header map as an
association list from canonical key to value. -/
structure Request where
  Method : String
  URL : String
  Header : List (String × String)
  Body : String
deriving DecidableEq, Repr

/-- The part of `http.Response` that `submit` reads. -/
structure Response where
  StatusCode : Int
deriving DecidableEq, Repr

/-- Go `Header.Get` on canonical keys: the value stored under `key`. -/
def headerGet (h : List (String × String)) (key : String) : Option String :=
  (h.find? (fun kv => kv.1 == key)).map (fun kv => kv.2)

/-- Go `Header.Set` on canonical keys: replaces whatever is stored under
`key` by the single value `value`. -/
def headerSet (h : List (String × String)) (key value : String) : List (String × String) :=
  (key, value) :: h.filter (fun kv => !(kv.1 == key))

/-- Go `req.Header.Set(key, value)`. -/
def Request.SetHeader (req : Request) (key value : String) : Request :=
  { req with Header := headerSet req.Header key value }

/-- Source: `type sumoAPIClient struct`. -/
structure sumoAPIClient where
  url : String
  hc : Client
  category : String
  sourceName : String
  sourceHost : String
  sourceClient : String
deriving DecidableEq, Repr

/-- Source: `type Config struct`. -/
structure Config where
  URL : String
  Interval : Duration
  Timeout : Duration
  Gatherer : Option Gatherer
  ErrorHandling : HandlerErrorHandling
  Logger : Option Logger
deriving DecidableEq, Repr

/-- Source: `type Bridge struct`.  `g` and `smClient` are the non-nil values
`NewBridge` stores on every path; `logger` is whatever the `Config` held, nil
included. -/
structure Bridge where
  interval : Duration
  logger : Option Logger
  errorHandling : HandlerErrorHandling
  g : Gatherer
  smClient : sumoAPIClient
deriving DecidableEq, Repr

/-! ## Effects -/

/-- What a call can do to the outside, in the order it does it. -/
inductive Effect where
  | gather (g : Gatherer)
  | log (v : List LogArg)
  | encode (m : MetricFamily)
  | submit (payload : String)
  | httpDo (hc : Client) (req : Request)
  | bodyClose
  | newTicker (d : Duration)
  | tickerStop
deriving DecidableEq, Repr

/-- How a call ended: it returned `a`, or the goroutine panicked. -/
inductive Outcome (α : Type) where
  | ret (a : α)
  | fault (msg : String)
deriving DecidableEq, Repr

/-- The result of running a piece of Go code: its effects and its outcome. -/
structure Exec (α : Type) where
  trace : List Effect
  out : Outcome α
deriving DecidableEq

/-- Returning a value does nothing to the outside. -/
def Exec.pure {α : Type} (a : α) : Exec α := ⟨[], .ret a⟩

/-- Sequencing: the second part runs only if the first returned. -/
def Exec.bind {α β : Type} (m : Exec α) (f : α → Exec β) : Exec β :=
  match m.out with
  | .ret a => ⟨m.trace ++ (f a).trace, (f a).out⟩
  | .fault msg => ⟨m.trace, .fault msg⟩

instance : Monad Exec where
  pure := Exec.pure
  bind := Exec.bind

/-- Perform one effect. -/
def emit (e : Effect) : Exec Unit := ⟨[e], .ret ()⟩

/-- Go `panic(msg)`, also a runtime panic. -/
def goPanic {α : Type} (msg : String) : Exec α := ⟨[], .fault msg⟩

/-- What one `enc.Encode(mf)` call does: the text it writes to the buffer
under the encoder, and the error it returns. -/
structure EncodeResult where
  written : String
  err : Option Error
deriving DecidableEq, Repr

/-- Everything outside the package, as one push cycle sees it. -/
structure World where
  /-- `g.Gather()`: the families and the error. -/
  Gather : Gatherer → List MetricFamily × Option Error
  /-- `enc.Encode(mf)` of the text-format encoder of `expfmt`. -/
  Encode : MetricFamily → EncodeResult
  /-- The error of `http.NewRequest("POST", url, _)`, `none` when the request
  is built. -/
  NewRequestErr : String → Option Error
  /-- `hc.Do(req)`: a response, or a transport error. -/
  Do : Client → Request → Except Error Response
  /-- `model.Now()`, in milliseconds. -/
  Now : Int

/-- Go `l.Println(v...)` on a field of interface type `Logger`: a call on the
nil interface is a runtime panic. -/
def Println (l : Option Logger) (v : List LogArg) : Exec Unit :=
  match l with
  | none => goPanic "invalid memory address or nil pointer dereference"
  | some _ => emit (.log v)

/-! ## Construction -/

/-- Source: `newSumoClient`.  The other fields keep their zero value. -/
def newSumoClient (url : String) (timeout : Duration) : Except Error sumoAPIClient :=
  let client : Client := { UseLastResponse := true, Timeout := timeout }
  .ok { url := url, hc := client,
        category := "", sourceName := "", sourceHost := "", sourceClient := "" }

/-- Source: `NewBridge`.  The caller's `Config` is reached through a pointer
and its `Timeout` is overwritten, so the updated `Config` is returned too. -/
def NewBridge (c : Config) : Config × Except Error Bridge :=
  let z : Duration := 0
  let c := if c.Timeout = z then { c with Timeout := defaultInterval } else c
  match newSumoClient c.URL c.Timeout with
  | .error err => (c, .error err)
  | .ok sm =>
    let g : Gatherer := match c.Gatherer with
      | none => DefaultGatherer
      | some g => g
    let interval : Duration := if c.Interval = z then defaultInterval else c.Interval
    (c, .ok { smClient := sm, interval := interval, g := g,
              errorHandling := c.ErrorHandling, logger := c.Logger })

/-! ## Submission -/

/-- Go `http.NewRequest(method, url, body)`: fails when the URL does not
parse, else a request with an empty header map. -/
def NewRequest (w : World) (method url : String) (body : String) : Except Error Request :=
  match w.NewRequestErr url with
  | some err => .error err
  | none => .ok { Method := method, URL := url, Header := [], Body := body }

/-- Source: `sumoAPIClient.submit`, from `http.NewRequest` to the last
`req.Header.Set`: the request handed to the transport. -/
def sumoAPIClient.buildRequest (sc : sumoAPIClient) (w : World) (payload : String) :
    Except Error Request :=
  match NewRequest w "POST" sc.url payload with
  | .error err => .error err
  | .ok req =>
    let req := req.SetHeader "Content-Type" "application/vnd.sumologic.prometheus"
    let req := if sc.category.length > 0 then req.SetHeader "X-Sumo-Category" sc.category else req
    let req := if sc.sourceName.length > 0 then req.SetHeader "X-Sumo-Name" sc.sourceName else req
    let req := if sc.sourceHost.length > 0 then req.SetHeader "X-Sumo-Host" sc.sourceHost else req
    let req := if sc.sourceClient.length > 0 then req.SetHeader "X-Sumo-Client" sc.sourceClient else req
    .ok req

/-- Source: `sumoAPIClient.submit`.  The first effect marks the call; the
  `resp.Body.Close()` that was deferred runs once the result is fixed. -/
def sumoAPIClient.submit (sc : sumoAPIClient) (w : World) (payload : String) :
    Exec (Option Error) := do
  emit (.submit payload)
  match sc.buildRequest w payload with
  | .error err => pure (some err)
  | .ok req =>
    emit (.httpDo sc.hc req)
    match w.Do sc.hc req with
    | .error err => pure (some err)
    | .ok resp =>
      let r : Option Error :=
        if resp.StatusCode ≥ StatusMultipleChoices ∨ resp.StatusCode < StatusOK then
          some (.nonOK resp.StatusCode)
        else none
      emit .bodyClose
      pure r

/-! ## One push cycle -/

/-- Source: the `for _, mf := range mfs` loop of `writeMetrics`, threading the
buffer `buf`. -/
def encodeLoop (b : Bridge) (w : World) : List MetricFamily → String → Exec String
  | [], buf => pure buf
  | mf :: rest, buf => do
    emit (.encode mf)
    let r := w.Encode mf
    let buf := buf ++ r.written
    if r.err ≠ none then
      Println b.logger [.str "[WARN] failed to encode: %v\n", .mf mf]
    encodeLoop b w rest buf

/-- Source: `Bridge.writeMetrics`.  `Close` of the text-format encoder writes
nothing. -/
def Bridge.writeMetrics (b : Bridge) (w : World) (mfs : List MetricFamily) (_now : Int) :
    Exec (Option Error) := do
  Println b.logger [.str "collected metrics: ", .int mfs.length]
  let buf ← encodeLoop b w mfs ""
  Println b.logger [.str "metrics payload:"]
  Println b.logger [.str buf]
  b.smClient.submit w buf

/-- Source: `Bridge.Push`. -/
def Bridge.Push (b : Bridge) (w : World) : Exec (Option Error) := do
  emit (.gather b.g)
  let (mfs, err) := w.Gather b.g
  if err ≠ none ∨ mfs.length = 0 then
    if b.errorHandling = AbortOnError then
      pure err
    else if b.errorHandling = ContinueOnError then
      (if b.logger ≠ none then Println b.logger [.str "continue on error:", .err err]
       else pure ()) >>= fun _ => b.writeMetrics w mfs w.Now
    else
      goPanic "unrecognized error handling value"
  else
    b.writeMetrics w mfs w.Now

/-! ## The scheduling loop -/

/-- What the `select` of `Run` receives: a fire of `ticker.C`, or `ctx.Done()`. -/
inductive RunEvent where
  | tick
  | done
deriving DecidableEq, Repr

/-- Where a call of `Run` stands: in its loop, returned, or panicked. -/
inductive RunStatus where
  | running
  | returned
  | crashed (msg : String)
deriving DecidableEq, Repr

/-- The state of a call of `Run`: its status, its effects so far, and the
number of `Push` calls it has made. -/
structure RunState where
  status : RunStatus
  trace : List Effect
  pushes : Nat
deriving DecidableEq, Repr

/-- Source: `Run` up to its loop.  `time.NewTicker` panics on a non-positive
interval. -/
def Bridge.runStart (b : Bridge) : RunState :=
  if b.interval ≤ 0 then
    { status := .crashed "non-positive interval for NewTicker", trace := [], pushes := 0 }
  else
    { status := .running, trace := [.newTicker b.interval], pushes := 0 }

/-- Source: one turn of the `for { select { ... } }` of `Run`.  The `i`-th
`Push` runs in the world `ws i`.  The deferred `ticker.Stop()` runs when `Run`
returns and when it panics. -/
def Bridge.runStep (b : Bridge) (ws : Nat → World) (s : RunState) (e : RunEvent) : RunState :=
  match s.status with
  | .running =>
    match e with
    | .tick =>
      let r := b.Push (ws s.pushes)
      match r.out with
      | .fault msg =>
        { status := .crashed msg, trace := s.trace ++ r.trace ++ [.tickerStop],
          pushes := s.pushes + 1 }
      | .ret err =>
        if err ≠ none ∧ b.logger ≠ none then
          { status := .running,
            trace := s.trace ++ r.trace ++ [.log [.str "error pushing to Sumo:", .err err]],
            pushes := s.pushes + 1 }
        else
          { status := .running, trace := s.trace ++ r.trace, pushes := s.pushes + 1 }
    | .done =>
      { status := .returned, trace := s.trace ++ [.tickerStop], pushes := s.pushes }
  | _ => s

/-- Source: `Bridge.Run`, fed the events its `select` receives, in order. -/
def Bridge.Run (b : Bridge) (ws : Nat → World) (events : List RunEvent) : RunState :=
  events.foldl (b.runStep ws) b.runStart

/-! ## Reading a trace -/

/-- The number of `enc.Encode` calls in a trace. -/
def encodeCalls (t : List Effect) : Nat :=
  (t.filter (fun e => match e with | .encode _ => true | _ => false)).length

/-- The payloads of the `submit` calls in a trace, in order. -/
def submitPayloads (t : List Effect) : List String :=
  t.filterMap (fun e => match e with | .submit p => some p | _ => none)

/-- The requests handed to the transport in a trace, in order. -/
def httpRequests (t : List Effect) : List Request :=
  t.filterMap (fun e => match e with | .httpDo _ req => some req | _ => none)

/-- The families handed to `enc.Encode` in a trace, in order. -/
def encodedFamilies (t : List Effect) : List MetricFamily :=
  t.filterMap (fun e => match e with | .encode m => some m | _ => none)

/-- The families named in the encode warnings of a trace, in order. -/
def warnedFamilies (t : List Effect) : List MetricFamily :=
  t.filterMap (fun e => match e with
    | .log [.str s, .mf m] => if s = "[WARN] failed to encode: %v\n" then some m else none
    | _ => none)

/-- The text the encoder wrote for a sequence of families: what each
`Encode` call wrote, in input order. -/
def concatWritten (w : World) : List MetricFamily → String
  | [] => ""
  | mf :: rest => (w.Encode mf).written ++ concatWritten w rest

/-- The text of the claim under test: the encodings of exactly those
families whose `Encode` call returned no error, in input order. -/
def concatSucceeded (w : World) : List MetricFamily → String
  | [] => ""
  | mf :: rest =>
    if (w.Encode mf).err = none then (w.Encode mf).written ++ concatSucceeded w rest
    else concatSucceeded w rest

/-- The effects of the encoding loop on a bridge with a logger: one `Encode`
call per family, followed by one warning when that call failed. -/
def loopTrace (w : World) : List MetricFamily → List Effect
  | [] => []
  | mf :: rest =>
    (if (w.Encode mf).err ≠ none then
      [Effect.encode mf, Effect.log [.str "[WARN] failed to encode: %v\n", .mf mf]]
     else [Effect.encode mf]) ++ loopTrace w rest

/-! ## Sample values -/

/-- The name of a metric type on a `# TYPE` line. -/
def typeName : MetricType → String
  | .COUNTER => "counter"
  | .GAUGE => "gauge"
  | .SUMMARY => "summary"
  | .UNTYPED => "untyped"
  | .HISTOGRAM => "histogram"

/-- The sample lines of a text encoder in the shape of the one of `expfmt`,
for families without labels: each sample is checked against the type of the
family when its turn comes, after the lines before it were written. -/
def sampleLines (name : String) (kind : MetricType) : List Metric → String → EncodeResult
  | [], acc => ⟨acc, none⟩
  | m :: rest, acc =>
    match kind, m.Counter, m.Gauge with
    | .COUNTER, some v, _ => sampleLines name kind rest (acc ++ name ++ " " ++ toString v ++ "\n")
    | .GAUGE, _, some v => sampleLines name kind rest (acc ++ name ++ " " ++ toString v ++ "\n")
    | _, _, _ => ⟨acc, some (.ext ("expected " ++ typeName kind ++ " in metric " ++ name))⟩

/-- A text encoder in the shape of the one of `expfmt`, the sample
`World.Encode`: two checks that fail before anything is written, then the
`# HELP` and `# TYPE` lines, then the samples. -/
def sampleEncode (mf : MetricFamily) : EncodeResult :=
  if mf.Metric.length = 0 then ⟨"", some (.ext "MetricFamily has no metrics")⟩
  else if mf.Name = "" then ⟨"", some (.ext "MetricFamily has no name")⟩
  else
    let help := match mf.Help with
      | some h => "# HELP " ++ mf.Name ++ " " ++ h ++ "\n"
      | none => ""
    sampleLines mf.Name mf.Kind mf.Metric
      (help ++ "# TYPE " ++ mf.Name ++ " " ++ typeName mf.Kind ++ "\n")

/-- A counter family with one sample. -/
def requestsTotal : MetricFamily :=
  { Name := "requests_total", Help := none, Kind := .COUNTER,
    Metric := [{ Counter := some 5, Gauge := none }] }

/-- A family declared a counter whose only sample carries a gauge value. -/
def mistyped : MetricFamily :=
  { Name := "queue_depth", Help := none, Kind := .COUNTER,
    Metric := [{ Counter := none, Gauge := some 3 }] }

/-- A sample world: the gatherer returns `mfs` and `err`, requests are built
for every URL but ":", and the collector answers every request with `status`. -/
def sampleWorld (mfs : List MetricFamily) (err : Option Error) (status : Int) : World :=
  { Gather := fun _ => (mfs, err),
    Encode := sampleEncode,
    NewRequestErr := fun url =>
      if url = ":" then some (.ext "parse \":\": missing protocol scheme") else none,
    Do := fun _ _ => .ok ⟨status⟩,
    Now := 0 }

/-- A sample client: two of the four identifying values are set. -/
def sampleClient : sumoAPIClient :=
  { url := "https://collector.example/receiver", hc := ⟨true, defaultInterval⟩,
    category := "prod", sourceName := "", sourceHost := "host-1", sourceClient := "" }

/-- A sample bridge with the given mode and logger. -/
def sampleBridge (mode : HandlerErrorHandling) (logger : Option Logger) : Bridge :=
  { interval := defaultInterval, logger := logger, errorHandling := mode,
    g := DefaultGatherer, smClient := sampleClient }

/-- A sample configuration: the given URL, interval and timeout, no gatherer,
mode `ContinueOnError`, no logger. -/
def sampleConfig (url : String) (interval timeout : Duration) : Config :=
  { URL := url, Interval := interval, Timeout := timeout, Gatherer := none,
    ErrorHandling := ContinueOnError, Logger := none }

/-- The bridge `NewBridge` makes of a negative interval and timeout. -/
def negativeBridge : Bridge :=
  { interval := -1, logger := none, errorHandling := ContinueOnError, g := DefaultGatherer,
    smClient := { url := "https://collector.example/receiver",
                  hc := { UseLastResponse := true, Timeout := -1 },
                  category := "", sourceName := "", sourceHost := "", sourceClient := "" } }

/-- The bridge `NewBridge` makes of `sampleConfig` with the sample URL, no
interval and no timeout, when the `Config` holds `logger`. -/
def builtBridge (logger : Option Logger) : Bridge :=
  { interval := defaultInterval, logger := logger, errorHandling := ContinueOnError,
    g := DefaultGatherer,
    smClient := { url := "https://collector.example/receiver",
                  hc := { UseLastResponse := true, Timeout := defaultInterval },
                  category := "", sourceName := "", sourceHost := "", sourceClient := "" } }

/-! ## Lemmas on `Exec` -/

@[simp] theorem bind_eq {α β : Type} (m : Exec α) (f : α → Exec β) :
    (m >>= f) = Exec.bind m f := rfl

@[simp] theorem pure_eq {α : Type} (a : α) : (pure a : Exec α) = Exec.pure a := rfl

theorem emit_bind {β : Type} (e : Effect) (f : Unit → Exec β) :
    Exec.bind (emit e) f = ⟨e :: (f ()).trace, (f ()).out⟩ := rfl

theorem pure_bind_exec {α β : Type} (a : α) (f : α → Exec β) :
    Exec.bind (Exec.pure a) f = f a := rfl

theorem println_some {β : Type} (l : Logger) (v : List LogArg) (f : Unit → Exec β) :
    Exec.bind (Println (some l) v) f = ⟨Effect.log v :: (f ()).trace, (f ()).out⟩ := rfl

theorem println_none {β : Type} (v : List LogArg) (f : Unit → Exec β) :
    Exec.bind (Println none v) f
      = ⟨[], .fault "invalid memory address or nil pointer dereference"⟩ := rfl

theorem encodeLoop_logger (b : Bridge) (w : World) (l : Logger) (hl : b.logger = some l)
    (mfs : List MetricFamily) (buf : String) :
    encodeLoop b w mfs buf = ⟨loopTrace w mfs, .ret (buf ++ concatWritten w mfs)⟩ := by
  induction mfs generalizing buf with
  | nil => simp [encodeLoop, loopTrace, concatWritten, Exec.pure]
  | cons mf rest ih =>
    simp only [encodeLoop, loopTrace, concatWritten, hl, bind_eq, pure_eq, emit_bind]
    by_cases h : (w.Encode mf).err = none
    · simp [h, pure_bind_exec, ih, String.append_assoc]
    · simp [h, println_some, ih, String.append_assoc]

theorem length_pos_iff (s : String) : s.length > 0 ↔ s ≠ "" := by
  cases s with
  | mk d =>
    cases d with
    | nil => simp [String.length]
    | cons c cs => simp [String.length, String.ext_iff]

theorem submit_out_ret (sc : sumoAPIClient) (w : World) (payload : String) :
    ∃ r, (sc.submit w payload).out = .ret r := by
  unfold sumoAPIClient.submit
  simp only [bind_eq, pure_eq, emit_bind]
  cases sc.buildRequest w payload with
  | error err => exact ⟨_, rfl⟩
  | ok req =>
    simp only [emit_bind]
    cases w.Do sc.hc req with
    | error err => exact ⟨_, rfl⟩
    | ok resp => exact ⟨_, rfl⟩

theorem submit_payloads (sc : sumoAPIClient) (w : World) (payload : String) :
    submitPayloads (sc.submit w payload).trace = [payload] := by
  unfold sumoAPIClient.submit
  simp only [bind_eq, pure_eq, emit_bind]
  cases sc.buildRequest w payload with
  | error err => rfl
  | ok req =>
    simp only [emit_bind]
    cases w.Do sc.hc req with
    | error err => rfl
    | ok resp => rfl

theorem submit_encodeCalls (sc : sumoAPIClient) (w : World) (payload : String) :
    encodeCalls (sc.submit w payload).trace = 0 := by
  unfold sumoAPIClient.submit
  simp only [bind_eq, pure_eq, emit_bind]
  cases sc.buildRequest w payload with
  | error err => rfl
  | ok req =>
    simp only [emit_bind]
    cases w.Do sc.hc req with
    | error err => rfl
    | ok resp => rfl

theorem writeMetrics_logger (b : Bridge) (w : World) (l : Logger) (hl : b.logger = some l)
    (mfs : List MetricFamily) (now : Int) :
    b.writeMetrics w mfs now
      = ⟨Effect.log [.str "collected metrics: ", .int mfs.length] ::
          (loopTrace w mfs ++
            (Effect.log [.str "metrics payload:"] ::
             Effect.log [.str (concatWritten w mfs)] ::
             (b.smClient.submit w (concatWritten w mfs)).trace)),
         (b.smClient.submit w (concatWritten w mfs)).out⟩ := by
  unfold Bridge.writeMetrics
  simp only [bind_eq, hl, println_some]
  rw [encodeLoop_logger b w l hl]
  simp [Exec.bind, println_some]

theorem trace_of_loop (w : World) (mfs : List MetricFamily) :
    submitPayloads (loopTrace w mfs) = [] ∧ httpRequests (loopTrace w mfs) = [] ∧
      encodeCalls (loopTrace w mfs) = mfs.length := by
  induction mfs with
  | nil => simp [loopTrace, submitPayloads, httpRequests, encodeCalls]
  | cons mf rest ih =>
    obtain ⟨h1, h2, h3⟩ := ih
    simp only [submitPayloads, httpRequests, encodeCalls] at h1 h2 h3 ⊢
    by_cases h : (w.Encode mf).err = none <;>
      simp [loopTrace, h, List.filterMap_append, List.filter_append, h1, h2, h3]

theorem Push_continue_trace (b : Bridge) (w : World) (l : Logger) (hl : b.logger = some l)
    (hmode : b.errorHandling = ContinueOnError) :
    b.Push w
      = ⟨Effect.gather b.g ::
          ((if (w.Gather b.g).2 ≠ none ∨ (w.Gather b.g).1.length = 0 then
              [Effect.log [.str "continue on error:", .err (w.Gather b.g).2]]
            else []) ++ (b.writeMetrics w (w.Gather b.g).1 w.Now).trace),
         (b.writeMetrics w (w.Gather b.g).1 w.Now).out⟩ := by
  have hw := writeMetrics_logger b w l hl (w.Gather b.g).1 w.Now
  obtain ⟨r, hr⟩ := submit_out_ret b.smClient w (concatWritten w (w.Gather b.g).1)
  have hne : b.errorHandling ≠ AbortOnError := by
    rw [hmode]; decide
  unfold Bridge.Push
  simp only [bind_eq, pure_eq, emit_bind, hl, hmode]
  by_cases h : (w.Gather b.g).2 ≠ none ∨ (w.Gather b.g).1.length = 0
  · rw [if_pos h, if_pos h]
    rw [hmode] at hne
    simp only [hne, if_false, println_some, if_true, ne_eq, not_false_eq_true, reduceCtorEq]
    simp [hw, hr]
  · rw [if_neg h, if_neg h]
    simp [hw, hr]

/-! ## The push cycle under `AbortOnError` -/

/-- C1: under `AbortOnError`, when `Gather` returned a non-nil error (with or
without families) or no family, `Push` does nothing after the `Gather` call:
no `Encode` call, no `submit` call, no HTTP request; and it returns the very
error `Gather` returned, which is nil when `Gather` returned no error and no
family. -/
theorem Push_abort_on_error (b : Bridge) (w : World)
    (hmode : b.errorHandling = AbortOnError)
    (hg : (w.Gather b.g).2 ≠ none ∨ (w.Gather b.g).1.length = 0) :
    b.Push w = ⟨[Effect.gather b.g], .ret (w.Gather b.g).2⟩ ∧
      encodeCalls (b.Push w).trace = 0 ∧
      submitPayloads (b.Push w).trace = [] ∧
      httpRequests (b.Push w).trace = [] ∧
      (w.Gather b.g = ([], none) → (b.Push w).out = .ret none) := by
  have h : b.Push w = ⟨[Effect.gather b.g], .ret (w.Gather b.g).2⟩ := by
    unfold Bridge.Push
    simp only [bind_eq, pure_eq, emit_bind, hmode]
    rw [if_pos hg]
    simp [Exec.pure]
  refine ⟨h, ?_, ?_, ?_, ?_⟩
  · rw [h]; rfl
  · rw [h]; rfl
  · rw [h]; rfl
  · intro hnone
    rw [h, hnone]

/-- Witness for C1: an aborting bridge without a logger, a gatherer that
fails while still returning a family. -/
theorem Push_abort_on_error_witness :
    (sampleBridge AbortOnError none).Push (sampleWorld [requestsTotal] (some (.ext "boom")) 200)
        = ⟨[Effect.gather DefaultGatherer], .ret (some (.ext "boom"))⟩ ∧
      encodeCalls ((sampleBridge AbortOnError none).Push
        (sampleWorld [requestsTotal] (some (.ext "boom")) 200)).trace = 0 :=
  have h := Push_abort_on_error (sampleBridge AbortOnError none)
    (sampleWorld [requestsTotal] (some (.ext "boom")) 200) rfl (Or.inl (by decide))
  ⟨h.1, h.2.1⟩

/-! ## The push cycle under `ContinueOnError` -/

/-- C2: on a bridge with a logger and mode `ContinueOnError`, whatever
`Gather` returned, `Push` makes exactly one `submit` call, its payload is the
text the encoder wrote for the gathered families (empty for no family), and
`Push` returns what that `submit` call returned. -/
theorem Push_continue_on_error (b : Bridge) (w : World) (l : Logger)
    (hl : b.logger = some l) (hmode : b.errorHandling = ContinueOnError) :
    submitPayloads (b.Push w).trace = [concatWritten w (w.Gather b.g).1] ∧
      (b.Push w).out = (b.smClient.submit w (concatWritten w (w.Gather b.g).1)).out ∧
      (∃ r, (b.Push w).out = .ret r) ∧
      encodeCalls (b.Push w).trace = (w.Gather b.g).1.length ∧
      ((w.Gather b.g).1 = [] → submitPayloads (b.Push w).trace = [""]) := by
  have hp := Push_continue_trace b w l hl hmode
  have hw := writeMetrics_logger b w l hl (w.Gather b.g).1 w.Now
  have hs := submit_payloads b.smClient w (concatWritten w (w.Gather b.g).1)
  obtain ⟨h1, _, h3⟩ := trace_of_loop w (w.Gather b.g).1
  have hpay : submitPayloads (b.Push w).trace = [concatWritten w (w.Gather b.g).1] := by
    rw [hp, hw]
    simp only [submitPayloads] at h1 hs ⊢
    by_cases h : (w.Gather b.g).2 ≠ none ∨ (w.Gather b.g).1.length = 0
    · rw [if_pos h]
      simp [List.filterMap_append, h1, hs]
    · rw [if_neg h]
      simp [List.filterMap_append, h1, hs]
  refine ⟨hpay, ?_, ?_, ?_, ?_⟩
  · rw [hp, hw]
  · rw [hp, hw]
    exact submit_out_ret _ _ _
  · have he := submit_encodeCalls b.smClient w (concatWritten w (w.Gather b.g).1)
    rw [hp, hw]
    simp only [encodeCalls] at h3 he ⊢
    by_cases h : (w.Gather b.g).2 ≠ none ∨ (w.Gather b.g).1.length = 0
    · rw [if_pos h]
      simp [List.filter_append, h3, he]
    · rw [if_neg h]
      simp [List.filter_append, h3, he]
  · intro hnil
    rw [hpay, hnil]
    rfl

/-- Witness for C2: the gatherer fails and returns nothing, the bridge still
posts once, an empty payload, and returns the result of that post. -/
theorem Push_continue_on_error_witness :
    submitPayloads ((sampleBridge ContinueOnError (some ⟨1⟩)).Push
        (sampleWorld [] (some (.ext "boom")) 503)).trace = [""] ∧
      ((sampleBridge ContinueOnError (some ⟨1⟩)).Push
        (sampleWorld [] (some (.ext "boom")) 503)).out = .ret (some (.nonOK 503)) :=
  have h := Push_continue_on_error (sampleBridge ContinueOnError (some ⟨1⟩))
    (sampleWorld [] (some (.ext "boom")) 503) ⟨1⟩ rfl rfl
  ⟨h.1, h.2.1.trans (by decide)⟩

/-! ## The submission client -/

/-- C3: when the transport hands `submit` a response with status code `s`,
`submit` returns no error exactly when `200 ≤ s < 300`; otherwise it returns
the error that carries `s`.  So 200, 204 and 299 succeed and 199, 300, 301,
302, 404 and 500 fail. -/
theorem submit_status (sc : sumoAPIClient) (w : World) (payload : String)
    (req : Request) (resp : Response)
    (hreq : sc.buildRequest w payload = .ok req) (hdo : w.Do sc.hc req = .ok resp) :
    ((sc.submit w payload).out = .ret none ↔ 200 ≤ resp.StatusCode ∧ resp.StatusCode < 300) ∧
      (¬ (200 ≤ resp.StatusCode ∧ resp.StatusCode < 300) →
        (sc.submit w payload).out = .ret (some (.nonOK resp.StatusCode)) ∧
        (Error.nonOK resp.StatusCode).message
          = "non-2xx response code: " ++ toString resp.StatusCode) := by
  have h : (sc.submit w payload).out
      = .ret (if resp.StatusCode ≥ StatusMultipleChoices ∨ resp.StatusCode < StatusOK then
          some (.nonOK resp.StatusCode) else none) := by
    unfold sumoAPIClient.submit
    simp only [bind_eq, pure_eq, emit_bind, hreq, hdo]
    rfl
  rw [h]
  simp only [StatusMultipleChoices, StatusOK]
  by_cases hs : resp.StatusCode ≥ 300 ∨ resp.StatusCode < 200
  · rw [if_pos hs]
    have hn : ¬ (200 ≤ resp.StatusCode ∧ resp.StatusCode < 300) := by omega
    simp [hn, Error.message]
  · rw [if_neg hs]
    have hy : 200 ≤ resp.StatusCode ∧ resp.StatusCode < 300 := by omega
    simp [hy]

/-- Witness for C3: a redirect answer is a failure that carries 301. -/
theorem submit_status_witness :
    (sampleClient.submit (sampleWorld [] none 301) "").out = .ret (some (.nonOK 301)) :=
  ((submit_status sampleClient (sampleWorld [] none 301) "" _ ⟨301⟩ rfl rfl).2
    (by decide)).1


theorem buildRequest_eq (sc : sumoAPIClient) (w : World) (payload : String) (req : Request)
    (hreq : sc.buildRequest w payload = .ok req) :
    req.Method = "POST" ∧ req.URL = sc.url ∧ req.Body = payload ∧
      headerGet req.Header "Content-Type" = some "application/vnd.sumologic.prometheus" ∧
      headerGet req.Header "X-Sumo-Category"
        = (if sc.category ≠ "" then some sc.category else none) ∧
      headerGet req.Header "X-Sumo-Name"
        = (if sc.sourceName ≠ "" then some sc.sourceName else none) ∧
      headerGet req.Header "X-Sumo-Host"
        = (if sc.sourceHost ≠ "" then some sc.sourceHost else none) ∧
      headerGet req.Header "X-Sumo-Client"
        = (if sc.sourceClient ≠ "" then some sc.sourceClient else none) := by
  unfold sumoAPIClient.buildRequest NewRequest at hreq
  cases hp : w.NewRequestErr sc.url with
  | some err => simp [hp] at hreq
  | none =>
    simp only [hp, length_pos_iff] at hreq
    injection hreq with hreq
    subst hreq
    by_cases h1 : sc.category = "" <;> by_cases h2 : sc.sourceName = "" <;>
      by_cases h3 : sc.sourceHost = "" <;> by_cases h4 : sc.sourceClient = "" <;>
      simp [h1, h2, h3, h4, headerGet, headerSet, Request.SetHeader]

/-- C4: whenever a request is built, the one request `submit` hands to the
transport is a POST to the configured URL with the payload as body, its
`Content-Type` is `application/vnd.sumologic.prometheus`, and each of
`X-Sumo-Category`, `X-Sumo-Name`, `X-Sumo-Host`, `X-Sumo-Client` is present
exactly when the configured value is a non-empty string, and then equals it. -/
theorem submit_request_headers (sc : sumoAPIClient) (w : World) (payload : String)
    (req : Request) (hreq : sc.buildRequest w payload = .ok req) :
    httpRequests (sc.submit w payload).trace = [req] ∧
      req.Method = "POST" ∧ req.URL = sc.url ∧ req.Body = payload ∧
      headerGet req.Header "Content-Type" = some "application/vnd.sumologic.prometheus" ∧
      headerGet req.Header "X-Sumo-Category"
        = (if sc.category ≠ "" then some sc.category else none) ∧
      headerGet req.Header "X-Sumo-Name"
        = (if sc.sourceName ≠ "" then some sc.sourceName else none) ∧
      headerGet req.Header "X-Sumo-Host"
        = (if sc.sourceHost ≠ "" then some sc.sourceHost else none) ∧
      headerGet req.Header "X-Sumo-Client"
        = (if sc.sourceClient ≠ "" then some sc.sourceClient else none) := by
  refine ⟨?_, buildRequest_eq sc w payload req hreq⟩
  unfold sumoAPIClient.submit
  simp only [bind_eq, pure_eq, emit_bind, hreq]
  cases w.Do sc.hc req with
  | error err => rfl
  | ok resp => rfl

/-- Witness for C4: the sample client has a category and a host and neither a
source name nor a source client. -/
theorem submit_request_headers_witness :
    httpRequests (sampleClient.submit (sampleWorld [] none 200) "x 1\n").trace
      = [{ Method := "POST", URL := "https://collector.example/receiver",
           Header := [("X-Sumo-Host", "host-1"), ("X-Sumo-Category", "prod"),
                      ("Content-Type", "application/vnd.sumologic.prometheus")],
           Body := "x 1\n" }] :=
  (submit_request_headers sampleClient (sampleWorld [] none 200) "x 1\n" _ rfl).1

/-! ## The encoding step -/

theorem submit_reads (sc : sumoAPIClient) (w : World) (payload : String) :
    encodedFamilies (sc.submit w payload).trace = [] ∧
      warnedFamilies (sc.submit w payload).trace = [] := by
  unfold sumoAPIClient.submit
  simp only [bind_eq, pure_eq, emit_bind]
  cases sc.buildRequest w payload with
  | error err => exact ⟨rfl, rfl⟩
  | ok req =>
    simp only [emit_bind]
    cases w.Do sc.hc req with
    | error err => exact ⟨rfl, rfl⟩
    | ok resp => exact ⟨rfl, rfl⟩

theorem loop_reads (w : World) (mfs : List MetricFamily) :
    encodedFamilies (loopTrace w mfs) = mfs ∧
      warnedFamilies (loopTrace w mfs) = mfs.filter (fun mf => (w.Encode mf).err ≠ none) := by
  induction mfs with
  | nil => simp [loopTrace, encodedFamilies, warnedFamilies]
  | cons mf rest ih =>
    obtain ⟨h1, h2⟩ := ih
    simp only [encodedFamilies, warnedFamilies] at h1 h2 ⊢
    by_cases h : (w.Encode mf).err = none <;>
      simp [loopTrace, h, List.filterMap_append, h1, h2]

theorem concat_of_silent_failures (w : World) (mfs : List MetricFamily)
    (h : ∀ mf ∈ mfs, (w.Encode mf).err ≠ none → (w.Encode mf).written = "") :
    concatWritten w mfs = concatSucceeded w mfs := by
  induction mfs with
  | nil => rfl
  | cons mf rest ih =>
    have hrest := ih (fun m hm => h m (List.mem_cons_of_mem _ hm))
    by_cases he : (w.Encode mf).err = none
    · simp [concatWritten, concatSucceeded, he, hrest]
    · simp [concatWritten, concatSucceeded, he, hrest, h mf (List.mem_cons_self _ _) he]

/-- C5, as the code has it: on a bridge with a logger, the payload
`writeMetrics` hands to `submit` is, in input order, the text that each
`Encode` call wrote to the buffer, the text of a failing call included; every
family is handed to the encoder once, in input order, the ones after a failure
too; each failing family gets one warning; what `writeMetrics` returns is what
`submit` returned, never an encode error; no family gives the empty payload;
and when failing calls write nothing the payload is the concatenation of the
encodings of the families that encoded. -/
theorem writeMetrics_payload (b : Bridge) (w : World) (l : Logger) (hl : b.logger = some l)
    (mfs : List MetricFamily) (now : Int) :
    submitPayloads (b.writeMetrics w mfs now).trace = [concatWritten w mfs] ∧
      encodedFamilies (b.writeMetrics w mfs now).trace = mfs ∧
      warnedFamilies (b.writeMetrics w mfs now).trace
        = mfs.filter (fun mf => (w.Encode mf).err ≠ none) ∧
      (b.writeMetrics w mfs now).out = (b.smClient.submit w (concatWritten w mfs)).out ∧
      (mfs = [] → submitPayloads (b.writeMetrics w mfs now).trace = [""]) ∧
      ((∀ mf ∈ mfs, (w.Encode mf).err ≠ none → (w.Encode mf).written = "") →
        submitPayloads (b.writeMetrics w mfs now).trace = [concatSucceeded w mfs]) := by
  have hw := writeMetrics_logger b w l hl mfs now
  have hs := submit_payloads b.smClient w (concatWritten w mfs)
  obtain ⟨hs1, hs2⟩ := submit_reads b.smClient w (concatWritten w mfs)
  obtain ⟨h1, _, _⟩ := trace_of_loop w mfs
  obtain ⟨h4, h5⟩ := loop_reads w mfs
  have hpay : submitPayloads (b.writeMetrics w mfs now).trace = [concatWritten w mfs] := by
    rw [hw]
    simp only [submitPayloads] at h1 hs ⊢
    simp [List.filterMap_append, h1, hs]
  refine ⟨hpay, ?_, ?_, ?_, ?_, ?_⟩
  · rw [hw]
    simp only [encodedFamilies] at h4 hs1 ⊢
    simp [List.filterMap_append, h4, hs1]
  · rw [hw]
    simp only [warnedFamilies] at h5 hs2 ⊢
    simp [List.filterMap_append, h5, hs2]
  · rw [hw]
  · intro hnil
    rw [hpay, hnil]
    rfl
  · intro hsilent
    rw [hpay, concat_of_silent_failures w mfs hsilent]

/-- Witness for C5: a family that fails before anything is written, between
two families that encode. -/
theorem writeMetrics_payload_witness :
    submitPayloads ((sampleBridge ContinueOnError (some ⟨1⟩)).writeMetrics
        (sampleWorld [] none 200)
        [requestsTotal, { requestsTotal with Metric := [] }, requestsTotal] 0).trace
      = ["# TYPE requests_total counter\nrequests_total 5\n" ++
         "# TYPE requests_total counter\nrequests_total 5\n"] :=
  (writeMetrics_payload (sampleBridge ContinueOnError (some ⟨1⟩)) (sampleWorld [] none 200)
    ⟨1⟩ rfl [requestsTotal, { requestsTotal with Metric := [] }, requestsTotal] 0).2.2.2.2.2
    (by decide)

/-- Counterexample to C5 as stated: `mistyped` fails to encode after its
`# TYPE` line was written, and that line is in the payload, which is then not
the concatenation of the encodings of the families that encoded. -/
theorem writeMetrics_payload_counterexample :
    (sampleEncode mistyped).err ≠ none ∧
      submitPayloads ((sampleBridge ContinueOnError (some ⟨1⟩)).writeMetrics
          (sampleWorld [] none 200) [mistyped, requestsTotal] 0).trace
        = ["# TYPE queue_depth counter\n# TYPE requests_total counter\nrequests_total 5\n"] ∧
      concatSucceeded (sampleWorld [] none 200) [mistyped, requestsTotal]
        = "# TYPE requests_total counter\nrequests_total 5\n" ∧
      submitPayloads ((sampleBridge ContinueOnError (some ⟨1⟩)).writeMetrics
          (sampleWorld [] none 200) [mistyped, requestsTotal] 0).trace
        ≠ [concatSucceeded (sampleWorld [] none 200) [mistyped, requestsTotal]] := by
  decide

/-! ## Construction -/

theorem NewBridge_ok (c : Config) :
    (NewBridge c).2 = .ok
      { interval := if c.Interval = 0 then defaultInterval else c.Interval,
        logger := c.Logger,
        errorHandling := c.ErrorHandling,
        g := (match c.Gatherer with
          | none => DefaultGatherer
          | some g => g),
        smClient :=
          { url := c.URL,
            hc := { UseLastResponse := true,
                    Timeout := if c.Timeout = 0 then defaultInterval else c.Timeout },
            category := "", sourceName := "", sourceHost := "", sourceClient := "" } } := by
  unfold NewBridge newSumoClient
  by_cases ht : c.Timeout = 0 <;> simp [ht]

/-- C6: for a `Config` with a non-empty URL, `NewBridge` returns a bridge and
no error; the interval of the bridge is 15 seconds when `Config.Interval` is
zero and `Config.Interval` otherwise; the timeout of its client is 15 seconds
when `Config.Timeout` is zero and `Config.Timeout` otherwise; its gatherer is
the supplied one, the default one when none is supplied; its mode and its
logger are those of the `Config`. -/
theorem NewBridge_defaults (c : Config) (hurl : c.URL ≠ "") :
    ∃ b, (NewBridge c).2 = .ok b ∧
      b.interval = (if c.Interval = 0 then 15 * 1000000000 else c.Interval) ∧
      b.smClient.hc.Timeout = (if c.Timeout = 0 then 15 * 1000000000 else c.Timeout) ∧
      (c.Gatherer = none → b.g = DefaultGatherer) ∧
      (∀ g, c.Gatherer = some g → b.g = g) ∧
      b.errorHandling = c.ErrorHandling ∧
      b.logger = c.Logger ∧
      b.smClient.url = c.URL := by
  have _ := hurl
  refine ⟨_, NewBridge_ok c, rfl, rfl, ?_, ?_, rfl, rfl, rfl⟩
  · intro hg
    simp [hg]
  · intro g hg
    simp [hg]

/-- Witness for C6: interval unset, timeout set to two seconds. -/
theorem NewBridge_defaults_witness :
    ∃ b, (NewBridge (sampleConfig "https://collector.example/receiver" 0 2000000000)).2 = .ok b ∧
      b.interval = 15000000000 ∧ b.smClient.hc.Timeout = 2000000000 ∧
      b.g = DefaultGatherer :=
  match NewBridge_defaults (sampleConfig "https://collector.example/receiver" 0 2000000000)
      (by decide) with
  | ⟨b, h, hi, ht, hg, _⟩ => ⟨b, h, hi.trans (by decide), ht.trans (by decide), hg rfl⟩

/-- Counterexample to C7 as stated: a negative interval and a negative timeout
are kept by `NewBridge`, and `Run` on that bridge panics in `time.NewTicker`. -/
theorem NewBridge_positive_counterexample :
    (NewBridge (sampleConfig "https://collector.example/receiver" (-1) (-1))).2
        = .ok negativeBridge ∧
      ¬ (0 < negativeBridge.interval) ∧
      ¬ (0 < negativeBridge.smClient.hc.Timeout) ∧
      (negativeBridge.Run (fun _ => sampleWorld [] none 200) [.tick]).status
        = .crashed "non-positive interval for NewTicker" := by
  refine ⟨rfl, by decide, by decide, by decide⟩

/-- C7, as the code has it: on every `Config` on which `NewBridge` succeeds,
the interval of the bridge and the timeout of its client are not zero; each is
strictly positive when the configured value is zero (it becomes 15 seconds) or
positive, and a negative configured value is kept as it is. -/
theorem NewBridge_nonzero (c : Config) (b : Bridge) (h : (NewBridge c).2 = .ok b) :
    b.interval ≠ 0 ∧ b.smClient.hc.Timeout ≠ 0 ∧
      (0 ≤ c.Interval → 0 < b.interval) ∧
      (0 ≤ c.Timeout → 0 < b.smClient.hc.Timeout) ∧
      (c.Interval < 0 → b.interval = c.Interval) ∧
      (c.Timeout < 0 → b.smClient.hc.Timeout = c.Timeout) := by
  rw [NewBridge_ok c] at h
  injection h with h
  subst h
  simp only [defaultInterval, Second]
  refine ⟨?_, ?_, ?_, ?_, ?_, ?_⟩
  · by_cases hi : c.Interval = 0 <;> simp [hi]
  · by_cases ht : c.Timeout = 0 <;> simp [ht]
  · intro h0
    by_cases hi : c.Interval = 0
    · simp [hi]
    · simp only [hi, if_false]
      exact lt_of_le_of_ne h0 (Ne.symm hi)
  · intro h0
    by_cases ht : c.Timeout = 0
    · simp [ht]
    · simp only [ht, if_false]
      exact lt_of_le_of_ne h0 (Ne.symm ht)
  · intro hneg
    have hi : c.Interval ≠ 0 := ne_of_lt hneg
    simp [hi]
  · intro hneg
    have ht : c.Timeout ≠ 0 := ne_of_lt hneg
    simp [ht]

/-- Witness for C7: an unset interval and a positive timeout. -/
theorem NewBridge_nonzero_witness :
    ∃ b, (NewBridge (sampleConfig "https://collector.example/receiver" 0 2000000000)).2 = .ok b ∧
      0 < b.interval ∧ 0 < b.smClient.hc.Timeout :=
  ⟨_, NewBridge_ok _,
    (NewBridge_nonzero (sampleConfig "https://collector.example/receiver" 0 2000000000)
      _ (NewBridge_ok _)).2.2.1 (by decide),
    (NewBridge_nonzero (sampleConfig "https://collector.example/receiver" 0 2000000000)
      _ (NewBridge_ok _)).2.2.2.1 (by decide)⟩

/-- Counterexample to C8 as stated: on the empty URL and on the unparseable
URL ":" `NewBridge` returns a bridge and no error. -/
theorem NewBridge_bad_url_counterexample :
    (NewBridge (sampleConfig "" 0 0)).2
        = .ok { interval := 15000000000, logger := none, errorHandling := ContinueOnError,
                g := DefaultGatherer,
                smClient := { url := "",
                              hc := { UseLastResponse := true, Timeout := 15000000000 },
                              category := "", sourceName := "", sourceHost := "",
                              sourceClient := "" } } ∧
      (NewBridge (sampleConfig ":" 0 0)).2
        = .ok { interval := 15000000000, logger := none, errorHandling := ContinueOnError,
                g := DefaultGatherer,
                smClient := { url := ":",
                              hc := { UseLastResponse := true, Timeout := 15000000000 },
                              category := "", sourceName := "", sourceHost := "",
                              sourceClient := "" } } :=
  ⟨rfl, rfl⟩

/-- C8, as the code has it: on every `Config`, the empty and the unparseable
URL included, `NewBridge` returns a bridge bound to that URL and no error; a
URL that `http.NewRequest` rejects shows later, when every `submit` of that
bridge returns the error of `http.NewRequest` and makes no HTTP request. -/
theorem NewBridge_never_fails (c : Config) :
    ∃ b, (NewBridge c).2 = .ok b ∧ b.smClient.url = c.URL ∧
      ∀ (w : World) (payload : String) (err : Error), w.NewRequestErr c.URL = some err →
        b.smClient.submit w payload = ⟨[Effect.submit payload], .ret (some err)⟩ := by
  refine ⟨_, NewBridge_ok c, rfl, ?_⟩
  intro w payload err herr
  unfold sumoAPIClient.submit sumoAPIClient.buildRequest NewRequest
  simp only [herr, bind_eq, pure_eq, emit_bind]
  rfl

/-- Witness for C8: the URL ":" is accepted at construction and refused at
the first `submit`. -/
theorem NewBridge_never_fails_witness :
    ∃ b, (NewBridge (sampleConfig ":" 0 0)).2 = .ok b ∧
      b.smClient.submit (sampleWorld [] none 200) "x 1\n"
        = ⟨[Effect.submit "x 1\n"],
           .ret (some (.ext "parse \":\": missing protocol scheme"))⟩ :=
  match NewBridge_never_fails (sampleConfig ":" 0 0) with
  | ⟨b, h, _, hs⟩ => ⟨b, h, hs (sampleWorld [] none 200) "x 1\n" _ rfl⟩

/-! ## A bridge without a logger -/

theorem writeMetrics_nil_logger (b : Bridge) (w : World) (mfs : List MetricFamily) (now : Int)
    (hl : b.logger = none) :
    b.writeMetrics w mfs now
      = ⟨[], .fault "invalid memory address or nil pointer dereference"⟩ := by
  unfold Bridge.writeMetrics
  simp only [bind_eq, hl, println_none]

/-- C9, the code at the failing input: `NewBridge` of a `Config` without a
logger gives `builtBridge none`; on it `Push` of one gathered family panics at
the first line of `writeMetrics`, the call of `Println` on the nil logger,
before anything is encoded or submitted; the same bridge with a logger posts
the payload and returns nil. -/
theorem Push_nil_logger_fault :
    (NewBridge (sampleConfig "https://collector.example/receiver" 0 0)).2
        = .ok (builtBridge none) ∧
      (builtBridge none).Push (sampleWorld [requestsTotal] none 200)
        = ⟨[Effect.gather DefaultGatherer],
           .fault "invalid memory address or nil pointer dereference"⟩ ∧
      submitPayloads ((builtBridge (some ⟨1⟩)).Push (sampleWorld [requestsTotal] none 200)).trace
        = ["# TYPE requests_total counter\nrequests_total 5\n"] ∧
      ((builtBridge (some ⟨1⟩)).Push (sampleWorld [requestsTotal] none 200)).out
        = .ret none := by
  refine ⟨rfl, by decide, by decide, by decide⟩

/-! ## The scheduling loop -/

theorem runStep_stopped (b : Bridge) (ws : Nat → World) (s : RunState) (e : RunEvent)
    (h : s.status ≠ .running) : b.runStep ws s e = s := by
  unfold Bridge.runStep
  cases hs : s.status with
  | running => exact absurd hs h
  | returned => rfl
  | crashed msg => rfl

theorem foldl_stopped (b : Bridge) (ws : Nat → World) (events : List RunEvent) (s : RunState)
    (h : s.status ≠ .running) : events.foldl (b.runStep ws) s = s := by
  induction events with
  | nil => rfl
  | cons e rest ih => rw [List.foldl_cons, runStep_stopped b ws s e h, ih]

theorem runStep_tick (b : Bridge) (ws : Nat → World) (s : RunState)
    (hs : s.status = .running) (err : Option Error)
    (hp : (b.Push (ws s.pushes)).out = .ret err) :
    b.runStep ws s .tick
      = { status := .running,
          trace := s.trace ++ (b.Push (ws s.pushes)).trace ++
            (if err ≠ none ∧ b.logger ≠ none then
              [Effect.log [.str "error pushing to Sumo:", .err err]] else []),
          pushes := s.pushes + 1 } := by
  unfold Bridge.runStep
  simp only [hs, hp]
  by_cases h : err ≠ none ∧ b.logger ≠ none
  · rw [if_pos h, if_pos h]
  · rw [if_neg h, if_neg h]
    simp

theorem foldl_running (b : Bridge) (ws : Nat → World)
    (hp : ∀ i, ∃ r, (b.Push (ws i)).out = .ret r) (events : List RunEvent) (s : RunState)
    (hs : s.status = .running) :
    (events.foldl (b.runStep ws) s).status
        = (if RunEvent.done ∈ events then .returned else .running) ∧
      (events.foldl (b.runStep ws) s).pushes
        = s.pushes + (events.takeWhile (fun e => e == RunEvent.tick)).length := by
  induction events generalizing s with
  | nil => simp [hs]
  | cons e rest ih =>
    cases e with
    | tick =>
      obtain ⟨err, herr⟩ := hp s.pushes
      have hstep := runStep_tick b ws s hs err herr
      have h := ih (b.runStep ws s .tick) (by rw [hstep])
      rw [List.foldl_cons]
      refine ⟨?_, ?_⟩
      · rw [h.1]; simp
      · rw [h.2, hstep]; simp; omega
    | done =>
      have hstep : b.runStep ws s .done
          = { status := .returned, trace := s.trace ++ [.tickerStop], pushes := s.pushes } := by
        unfold Bridge.runStep
        simp only [hs]
      rw [List.foldl_cons, foldl_stopped b ws rest _ (by rw [hstep]; simp), hstep]
      simp

/-- C10: `Run` as a step relation over the events "timer fired" and "context
cancelled", when no `Push` panics.  A "timer fired" step in the loop runs one
`Push` and stays in the loop, and logs the error of that `Push` only when
there is one and a logger is configured.  The loop is left for the returned
state only by a "context cancelled" step.  After that no step changes
anything, so no further `Push` runs.  Over a whole sequence of events: `Run`
has returned exactly when its ticker could be made and the sequence holds a
cancellation, and then the number of `Push` calls is the number of timer fires
before the first cancellation. -/
theorem Run_step_relation (b : Bridge) (ws : Nat → World)
    (hp : ∀ i, ∃ r, (b.Push (ws i)).out = .ret r) :
    (∀ s, s.status = .running → ∃ err, (b.Push (ws s.pushes)).out = .ret err ∧
        b.runStep ws s .tick
          = { status := .running,
              trace := s.trace ++ (b.Push (ws s.pushes)).trace ++
                (if err ≠ none ∧ b.logger ≠ none then
                  [Effect.log [.str "error pushing to Sumo:", .err err]] else []),
              pushes := s.pushes + 1 }) ∧
      (∀ s e, s.status = .running → (b.runStep ws s e).status = .returned → e = .done) ∧
      (∀ s, s.status = .running →
        b.runStep ws s .done
          = { status := .returned, trace := s.trace ++ [.tickerStop], pushes := s.pushes }) ∧
      (∀ s e, s.status = .returned → b.runStep ws s e = s) ∧
      (∀ events,
        ((b.Run ws events).status = .returned ↔ 0 < b.interval ∧ RunEvent.done ∈ events) ∧
        (0 < b.interval →
          (b.Run ws events).pushes
            = (events.takeWhile (fun e => e == RunEvent.tick)).length)) := by
  refine ⟨?_, ?_, ?_, ?_, ?_⟩
  · intro s hs
    obtain ⟨err, herr⟩ := hp s.pushes
    exact ⟨err, herr, runStep_tick b ws s hs err herr⟩
  · intro s e hs hret
    cases e with
    | done => rfl
    | tick =>
      obtain ⟨err, herr⟩ := hp s.pushes
      rw [runStep_tick b ws s hs err herr] at hret
      simp at hret
  · intro s hs
    unfold Bridge.runStep
    simp only [hs]
  · intro s e hs
    exact runStep_stopped b ws s e (by rw [hs]; simp)
  · intro events
    by_cases hpos : 0 < b.interval
    · have hstart : b.runStart
          = { status := .running, trace := [.newTicker b.interval], pushes := 0 } := by
        unfold Bridge.runStart
        rw [if_neg (not_le.mpr hpos)]
      have h := foldl_running b ws hp events b.runStart (by rw [hstart])
      unfold Bridge.Run
      refine ⟨?_, ?_⟩
      · rw [h.1]
        by_cases hd : RunEvent.done ∈ events <;> simp [hd, hpos]
      · intro _
        rw [h.2, hstart]
        simp
    · have hstart : b.runStart
          = { status := .crashed "non-positive interval for NewTicker", trace := [],
              pushes := 0 } := by
        unfold Bridge.runStart
        rw [if_pos (not_lt.mp hpos)]
      unfold Bridge.Run
      rw [foldl_stopped b ws events _ (by rw [hstart]; simp), hstart]
      simp [hpos]

/-- Witness for C10: two timer fires, a cancellation, one more timer fire:
`Run` has returned after two `Push` calls. -/
theorem Run_step_relation_witness :
    ((sampleBridge ContinueOnError (some ⟨1⟩)).Run (fun _ => sampleWorld [requestsTotal] none 500)
        [.tick, .tick, .done, .tick]).status = .returned ∧
      ((sampleBridge ContinueOnError (some ⟨1⟩)).Run
        (fun _ => sampleWorld [requestsTotal] none 500)
        [.tick, .tick, .done, .tick]).pushes = 2 :=
  have h := (Run_step_relation (sampleBridge ContinueOnError (some ⟨1⟩))
    (fun _ => sampleWorld [requestsTotal] none 500) (fun _ => ⟨_, rfl⟩)).2.2.2.2
    [.tick, .tick, .done, .tick]
  ⟨h.1.mpr ⟨by decide, by decide⟩, (h.2 (by decide)).trans (by decide)⟩

end SumoBridge
